import Mathlib

set_option maxHeartbeats 1000000

/-!
Verification development for the Open Osmosis sushi chef (`src/chef.py`).

The file shallowly embeds the assessment-item crawler of `chef.py`:
the Markdown extractor (`_process_text_into_markdown`), the question
parser (`fetch_assessment_item`), the retry/backoff loop and exercise
grouping of `fetch_assessment_topic_items`, the taxonomy matcher of
`fetch_assessment_topics`, and `make_fully_qualified_url`.  DOM access
through BeautifulSoup is abstracted at the level of the selector results
the code reads: a `DomChild` records the image blocks, class list and
stripped text of one child node, and a `Page` records the outcome of the
five CSS selector queries `fetch_assessment_item` performs.  Python
exceptions raised by the extraction path are represented by the
`ExtractError` type, and `time.sleep` / `driver.get` calls by an `Event`
trace.
-/

namespace OpenOsmosis

/-- Python `str.startswith`, used by `make_fully_qualified_url` (chef.py:412-416). -/
def strStartsWith (s pre : String) : Bool :=
  pre.data.isPrefixOf s.data

/-- Python `str.endswith`, used on the next link (chef.py:298). -/
def strEndsWith (s suf : String) : Bool :=
  suf.data.isSuffixOf s.data

/-- `make_fully_qualified_url` (chef.py:411-418). -/
def makeFullyQualifiedUrl (url : String) : String :=
  if strStartsWith url "//" then "http:" ++ url
  else if strStartsWith url "/" then "https://open.osmosis.org" ++ url
  else if !(strStartsWith url "http") then "https://open.osmosis.org/" ++ url
  else url

/-- Failures raised while turning a page into an assessment item.  They model
the Python exceptions of chef.py: the `assert` on multiple image blocks
(line 251), the raise on a missing `img` tag (line 257), the `AttributeError`
from calling `.children` on a `select_one` miss (lines 248, 277, 284, 286),
and the `AttributeError` from reading `.text` of a missing correct-answer
element (line 280).  The spec groups all of these as `MalformedContentError`. -/
inductive ExtractError
  | multipleImages
  | missingImgTag
  | missingContainer
  | missingCorrect
deriving Repr, DecidableEq

/-- One `.models-media-Image` block inside a child node: the optional inner
`img` tag's `src` (chef.py:252-258) and the block's stripped text used as the
caption (chef.py:259). -/
structure ImageBlock where
  imgSrc : Option String
  caption : String
deriving Repr, DecidableEq

/-- One direct child of a container node, as read by
`_process_text_into_markdown` (chef.py:248-265): the `.models-media-Image`
matches, the class list, and the stripped `get_text` result. -/
structure DomChild where
  imageBlocks : List ImageBlock
  classes : List String
  text : String
deriving Repr, DecidableEq

/-- The body of the loop of `_process_text_into_markdown` (chef.py:248-265)
for one child.  `.ok none` models `continue` (the child is skipped),
`.ok (some md)` the Markdown appended for the child. -/
def processChild (skipMissingImages : Bool) (node : DomChild) : Except ExtractError (Option String) :=
  match node.imageBlocks with
  | [] =>
    let text := node.text
    let text := if node.classes.contains "fwb" then "**" ++ text ++ "**" else text
    .ok (some (text ++ "\n\n"))
  | [image] =>
    match image.imgSrc with
    | none => if skipMissingImages then .ok none else .error .missingImgTag
    | some src =>
      .ok (some ("![" ++ image.caption ++ "](" ++ src ++ ")\n\n" ++ image.caption ++ "\n\n"))
  | _ => .error .multipleImages

/-- The full loop of `_process_text_into_markdown` (chef.py:246-267),
concatenating the per-child Markdown in document order. -/
def processChildren (skipMissingImages : Bool) : List DomChild → Except ExtractError String
  | [] => .ok ""
  | c :: rest =>
    match processChild skipMissingImages c with
    | .error e => .error e
    | .ok none => processChildren skipMissingImages rest
    | .ok (some md) =>
      match processChildren skipMissingImages rest with
      | .error e => .error e
      | .ok s => .ok (md ++ s)

/-- `_process_text_into_markdown` (chef.py:245-267).  `none` models being
handed the result of a failed `select_one`, on which Python raises
`AttributeError` when reading `.children`. -/
def processTextIntoMarkdown (container : Option (List DomChild)) (skipMissingImages : Bool) :
    Except ExtractError String :=
  match container with
  | none => .error .missingContainer
  | some children => processChildren skipMissingImages children

/-- One rendered item page, as read by the five selector queries of
`fetch_assessment_item` (chef.py:277-297): the stem container, the answer
texts, the bold correct answer, the two explanation containers, and the
`href` of the next link (absent when `select_one` finds none). -/
structure Page where
  stem : Option (List DomChild)
  answers : List String
  correct : Option String
  explainAns : Option (List DomChild)
  explain : Option (List DomChild)
  nextHref : Option String
deriving Repr, DecidableEq

/-- The `SingleSelectQuestion` built at chef.py:290-292. -/
structure Question where
  id : String
  question : String
  allAnswers : List String
  correctAnswer : String
  hints : String
deriving Repr, DecidableEq

/-- `fetch_assessment_item` (chef.py:270-301): extract one question and the
next item URL.  The evaluation order matches the Python statement order, so
the first missing structural element determines the error. -/
def fetchAssessmentItem (page : Page) (itemId : String) (skipMissingImages : Bool) :
    Except ExtractError (Question × Option String) :=
  match processTextIntoMarkdown page.stem skipMissingImages with
  | .error e => .error e
  | .ok questionMarkdown =>
    let answers := page.answers
    match page.correct with
    | none => .error .missingCorrect
    | some correct =>
      match processTextIntoMarkdown page.explainAns skipMissingImages with
      | .error e => .error e
      | .ok hint1 =>
        match processTextIntoMarkdown page.explain skipMissingImages with
        | .error e => .error e
        | .ok hint2 =>
          let combinedHint := hint1 ++ "\n\nMain Explanation\n---\n\n" ++ hint2
          let question : Question :=
            { id := itemId, question := questionMarkdown, allAnswers := answers,
              correctAnswer := correct, hints := combinedHint }
          let nextItemUrl : Option String :=
            match page.nextHref with
            | none => none
            | some nextHref =>
              if strEndsWith nextHref "null" then none
              else some (makeFullyQualifiedUrl nextHref)
          .ok (question, nextItemUrl)

/-- Side effects of the retry loop (chef.py:227-228): `driver.get` and
`time.sleep`. -/
inductive Event
  | navigate (url : String)
  | sleep (seconds : Nat)
deriving Repr, DecidableEq

/-- The navigate/sleep trace produced by `remaining` consecutive failing
attempts, starting at attempt index `i` (chef.py:224-228): each failure
re-navigates to the current URL and then sleeps `2 ^ i` seconds. -/
def backoffEvents (url : String) : Nat → Nat → List Event
  | 0, _ => []
  | remaining + 1, i =>
    Event.navigate url :: Event.sleep (2 ^ i) :: backoffEvents url remaining (i + 1)

/-- The retry loop `for i in range(0, 4)` with its `else` clause
(chef.py:218-234).  `attempts i` is the page HTML captured from the driver at
attempt `i`; the `else` branch (reached when `remaining` hits 0 at attempt
index 4) re-extracts with `skip_missing_images=True`. -/
def extractWithRetryAux (attempts : Nat → Page) (itemId currentUrl : String) :
    Nat → Nat → List Event × Except ExtractError (Question × Option String)
  | 0, i => ([], fetchAssessmentItem (attempts i) itemId true)
  | remaining + 1, i =>
    match fetchAssessmentItem (attempts i) itemId false with
    | .ok result => ([], .ok result)
    | .error _ =>
      let waitTime := 2 ^ i
      let rest := extractWithRetryAux attempts itemId currentUrl remaining (i + 1)
      (Event.navigate currentUrl :: Event.sleep waitTime :: rest.1, rest.2)

/-- The whole extraction of one item with retries (chef.py:218-234). -/
def extractWithRetry (attempts : Nat → Page) (itemId currentUrl : String) :
    List Event × Except ExtractError (Question × Option String) :=
  extractWithRetryAux attempts itemId currentUrl 4 0

/-- `QUESTIONS_PER_EXERCISE` (chef.py:187). -/
def QUESTIONS_PER_EXERCISE : Nat := 5

/-- `_title_exercise` (chef.py:183-184). -/
def titleExercise (topicTitle : String) (firstItem lastItem : Nat) : String :=
  topicTitle ++ " Questions " ++ toString firstItem ++ "-" ++ toString lastItem

/-- The `ExerciseNode` built at chef.py:210-212 together with the questions
added to it (chef.py:236). -/
structure ExerciseUnit where
  sourceId : String
  title : String
  thumbnail : Option String
  questions : List Question
deriving Repr, DecidableEq

/-- The mutable loop state of `fetch_assessment_topic_items`: the exercise
children attached to the topic so far, `item_count`, and
`first_item_index_in_exercise` (chef.py:196, 207, 213, 237). -/
structure WalkState where
  units : List ExerciseUnit
  itemCount : Nat
  firstItemIndexInExercise : Nat
deriving Repr, DecidableEq

/-- State at loop entry (chef.py:196): no exercise attached, count 0.  The
`firstItemIndexInExercise` field is unbound in Python before the first
iteration; `0` is a placeholder that is never read on the code paths modelled
(`retitleFinal` fails first). -/
def initState : WalkState :=
  { units := [], itemCount := 0, firstItemIndexInExercise := 0 }

/-- `exercise_node.add_question(question)` (chef.py:236): append to the most
recently attached exercise.  On an empty list this is a no-op stand-in for
Python's unbound `exercise_node`; the walker never reaches that case. -/
def addLast : List ExerciseUnit → Question → List ExerciseUnit
  | [], _ => []
  | [u], q => [{ u with questions := u.questions ++ [q] }]
  | u :: v :: rest, q => u :: addLast (v :: rest) q

/-- Fold of `addLast` over several questions. -/
def addLastAll (us : List ExerciseUnit) (qs : List Question) : List ExerciseUnit :=
  qs.foldl addLast us

/-- The fresh `ExerciseNode` built at chef.py:210-212: id of the item about
to be added, provisional title spanning the next five positions, the topic's
thumbnail, and no questions yet. -/
def freshUnit (topicShortTitle : String) (thumbnail : Option String)
    (c : Nat) (itemId : String) : ExerciseUnit :=
  { sourceId := itemId,
    title := titleExercise topicShortTitle (c + 1) (c + QUESTIONS_PER_EXERCISE),
    thumbnail := thumbnail,
    questions := [] }

/-- The exercise-opening step (chef.py:206-213): when `item_count` is a
multiple of 5, record `first_item_index_in_exercise`, build a provisional
title from the short topic title, and attach a new empty exercise node. -/
def openUnit (topicShortTitle : String) (thumbnail : Option String)
    (s : WalkState) (itemId : String) : WalkState :=
  if s.itemCount % QUESTIONS_PER_EXERCISE = 0 then
    { s with
      units := s.units ++ [freshUnit topicShortTitle thumbnail s.itemCount itemId]
      firstItemIndexInExercise := s.itemCount }
  else s

/-- `exercise_node.add_question(question); item_count += 1` (chef.py:236-237). -/
def addQuestion (s : WalkState) (q : Question) : WalkState :=
  { s with units := addLast s.units q, itemCount := s.itemCount + 1 }

/-- One full grouping step for a successfully extracted item. -/
def acceptItem (topicShortTitle : String) (thumbnail : Option String)
    (s : WalkState) (itemId : String) (q : Question) : WalkState :=
  addQuestion (openUnit topicShortTitle thumbnail s itemId) q

/-- The Exercise Grouper: the grouping performed by the walker loop over a
sequence of `(item id, question)` pairs (chef.py:205-237, success path). -/
def runGrouper (topicShortTitle : String) (thumbnail : Option String) :
    List (String × Question) → WalkState → WalkState
  | [], s => s
  | (itemId, q) :: rest, s =>
    runGrouper topicShortTitle thumbnail rest (acceptItem topicShortTitle thumbnail s itemId q)

/-- Overwrite the title of the most recently attached exercise
(chef.py:241). -/
def setLastTitle : List ExerciseUnit → String → List ExerciseUnit
  | [], _ => []
  | [u], t => [{ u with title := t }]
  | u :: v :: rest, t => u :: setLastTitle (v :: rest) t

/-- The final re-title step (chef.py:239-242): rebuild the last exercise's
title from `topic_node.title`, `first_item_index_in_exercise` and
`item_count`.  When no exercise was ever opened, Python raises
`UnboundLocalError` on `exercise_node`; that is the `none` case. -/
def retitleFinal (topicNodeTitle : String) (s : WalkState) : Option WalkState :=
  if s.units.isEmpty then none
  else
    let finalTitle :=
      titleExercise topicNodeTitle (s.firstItemIndexInExercise + 1) s.itemCount
    some { s with units := setLastTitle s.units finalTitle }

/-- One visited page of a topic's next-link chain: the canonical URL after
navigation, the item id derived from its trailing path segment (chef.py:201),
and the page HTML captured at each retry attempt. -/
structure ItemStep where
  url : String
  itemId : String
  attempts : Nat → Page

/-- The extraction outcome for one chain step, after retries and the
degraded-mode fallback. -/
def stepResult (step : ItemStep) : Except ExtractError (Question × Option String) :=
  (extractWithRetry step.attempts step.itemId step.url).2

/-- The Pagination Walker: the `while next_item_url` loop of
`fetch_assessment_topic_items` (chef.py:198-237) over the finite chain of
pages it visits.  The exercise node is opened before extraction is attempted,
so an abort can leave a freshly opened empty exercise attached.  A hard
extraction failure returns the state built so far together with the error. -/
def walkChain (topicShortTitle : String) (thumbnail : Option String) :
    List ItemStep → WalkState → WalkState × Option ExtractError
  | [], s => (s, none)
  | step :: rest, s =>
    let s1 := openUnit topicShortTitle thumbnail s step.itemId
    match stepResult step with
    | .error e => (s1, some e)
    | .ok (q, nextUrl) =>
      let s2 := addQuestion s1 q
      match nextUrl with
      | none => (s2, none)
      | some _ => walkChain topicShortTitle thumbnail rest s2

/-- A chain is well formed when every step extracts successfully, every
non-final step's next URL points at the following step, and the final step
yields no next URL (absent link or sentinel). -/
def chainOk : List ItemStep → Bool
  | [] => true
  | step :: rest =>
    match stepResult step with
    | .error _ => false
    | .ok (_, nextUrl) =>
      match rest with
      | [] => nextUrl.isNone
      | next :: _ => (nextUrl == some next.url) && chainOk rest

/-- The `(item id, question)` pairs successfully extracted along a chain. -/
def chainItems : List ItemStep → List (String × Question)
  | [] => []
  | step :: rest =>
    match stepResult step with
    | .ok (q, _) => (step.itemId, q) :: chainItems rest
    | .error _ => chainItems rest

/-- Every step of the list extracts successfully with a present next URL. -/
def stepsOkSome (pre : List ItemStep) : Bool :=
  pre.all fun st =>
    match stepResult st with
    | .ok (_, some _) => true
    | _ => false

/-- All questions currently attached to the topic, in unit order. -/
def emittedQuestions (s : WalkState) : List Question :=
  (s.units.map fun u => u.questions).flatten

/-- A filled chunk unit: the fresh unit for the chunk's first item holding
that item's question followed by the questions of the next up to four
items. -/
def chunkUnit (topicShortTitle : String) (thumbnail : Option String) (c : Nat)
    (itemId : String) (q : Question) (rest : List (String × Question)) : ExerciseUnit :=
  { freshUnit topicShortTitle thumbnail c itemId with
    questions := q :: (rest.take 4).map Prod.snd }

/-- The list of exercise units the grouper builds from an aligned running
count `c`: chunks of five questions, each unit titled from the short topic
title and carrying the id of its first item. -/
def groupChunks (topicShortTitle : String) (thumbnail : Option String) :
    Nat → List (String × Question) → List ExerciseUnit
  | _, [] => []
  | c, (itemId, q) :: rest =>
    chunkUnit topicShortTitle thumbnail c itemId q rest
      :: groupChunks topicShortTitle thumbnail (c + 5) (rest.drop 4)
termination_by _ items => items.length
decreasing_by simp [List.length_drop]; omega

/-- A child whose single image block lacks an inner `img` tag: the fault that
`skip_missing_images=True` recovers from. -/
def isMissingImageChild (c : DomChild) : Bool :=
  match c.imageBlocks with
  | [b] => b.imgSrc.isNone
  | _ => false

/-- Whether an extraction result is a success. -/
def exceptIsOk : Except ExtractError (Question × Option String) → Bool
  | .ok _ => true
  | .error _ => false

/-- `QUESTION_VIDEO_MAP` (chef.py:49-77), kept as the ordered literal entries
of the Python dict, duplicate `None` keys included.  A Python dict literal
lets later duplicate keys overwrite earlier ones, which `dictGet` reproduces
by searching from the end. -/
def QUESTION_VIDEO_MAP : List (Option String × Option String) := [
  (some "Genetics", some "Genetics pathology"),
  (some "Dermatology", some "Dermatology pathology"),
  (some "Heme/Onc", some "Hematology pathology"),
  (some "Neurology", some "Neurological pathology"),
  (some "Renal", some "Renal pathology"),
  (some "Cardiology", some "Cardiovascular pathology"),
  (some "GI", some "Gastrointestinal pathology"),
  (some "Endocrine", some "Endocrine pathology"),
  (some "Reproduction", some "Reproductive pathology"),
  (some "MSK", some "Musculoskeletal pathology"),
  (some "Pediatrics", some "Pediatrics videos"),
  (some "Pulmonology", some "Respiratory pathology"),
  (some "Psychiatry", some "Mental health and disorders"),
  (some "Microbiology", some "Infectious disease pathology"),
  (some "Anesthesiology", none),
  (some "Emergency Medicine", none),
  (some "Osteopathic Principles", none),
  (some "Ophthalmology", none),
  (some "Radiology", none),
  (some "Surgery", none),
  (none, some "Pathophysiology"),
  (none, some "The science of teaching and learning"),
  (none, some "Physiology"),
  (none, some "Ear, nose, and throat"),
  (none, some "Immune disorders"),
  (none, some "Fluid and Electrolyte Imbalances"),
  (none, some "Maternal pathology")]

/-- Python `dict.get` on a dict built from an ordered literal: the last
binding of a key wins; an absent key yields `none`. -/
def dictGet (entries : List (Option String × Option String)) (key : Option String) :
    Option (Option String) :=
  (entries.reverse.find? fun p => p.1 == key).map Prod.snd

/-- `QUESTION_VIDEO_MAP.get(text)` (chef.py:166): a missing key and a key
mapped to Python `None` both give `None`. -/
def questionVideoName (text : String) : Option String :=
  Option.join (dictGet QUESTION_VIDEO_MAP (some text))

/-- Python truthiness of an optional string (`if video_topic_name:`). -/
def isTruthyStr : Option String → Bool
  | none => false
  | some s => !s.data.isEmpty

/-- A `TopicNode` as far as the matcher manipulates it (chef.py:130-132,
171-176): source id, title, thumbnail. -/
structure TopicNode where
  sourceId : String
  title : String
  thumbnail : Option String
deriving Repr, DecidableEq

/-- The per-topic resolution of `fetch_assessment_topics` (chef.py:165-177):
look the assessment topic name up in `QUESTION_VIDEO_MAP`; when the mapped
playlist was harvested, reuse that node, overwriting only its title and
thumbnail; otherwise build a fresh node.  The boolean is true when a fresh
node was created and attached to the channel. -/
def resolveTopic (topicsMap : String → Option TopicNode) (text topicId img : String) :
    TopicNode × Bool :=
  let videoTopicName := questionVideoName text
  let merged : Option TopicNode :=
    if isTruthyStr videoTopicName then
      match videoTopicName with
      | some vname =>
        match topicsMap vname with
        | some tn =>
          some { tn with title := text ++ " (" ++ vname ++ ")", thumbnail := some img }
        | none => none
      | none => none
    else none
  match merged with
  | some tn => (tn, false)
  | none => ({ sourceId := topicId, title := text, thumbnail := some img }, true)

/-! Concrete fixtures used by the witness and counterexample theorems. -/

/-- A text-only child node. -/
def childText : DomChild :=
  { imageBlocks := [], classes := [], text := "What is shown?" }

/-- A child whose image block has no inner `img` tag. -/
def childMissingImage : DomChild :=
  { imageBlocks := [{ imgSrc := none, caption := "Figure" }], classes := [], text := "Figure" }

/-- A structurally broken page: the stem selector finds nothing. -/
def pageBad : Page :=
  { stem := none, answers := [], correct := none, explainAns := none,
    explain := none, nextHref := none }

/-- A page whose only fault is a missing image inside the stem. -/
def pageImgMissing : Page :=
  { stem := some [childMissingImage, childText], answers := ["A", "B"], correct := some "A",
    explainAns := some [], explain := some [], nextHref := none }

/-- A well-formed page whose next link points at `/item/2`. -/
def pageOk1 : Page :=
  { stem := some [childText], answers := ["A", "B"], correct := some "A",
    explainAns := some [], explain := some [], nextHref := some "/item/2" }

/-- A well-formed final page whose next link ends in the sentinel `null`. -/
def pageOk2 : Page :=
  { stem := some [childText], answers := ["A", "B"], correct := some "B",
    explainAns := some [], explain := some [], nextHref := some "/item/null" }

/-- A well-formed page whose next link points at `/item/3`. -/
def pageOk2b : Page :=
  { stem := some [childText], answers := ["A", "B"], correct := some "B",
    explainAns := some [], explain := some [], nextHref := some "/item/3" }

/-- First chain step: renders `pageOk1` on every attempt. -/
def step1 : ItemStep :=
  { url := "https://open.osmosis.org/item/1", itemId := "1", attempts := fun _ => pageOk1 }

/-- Second, final chain step: renders `pageOk2` (sentinel next link). -/
def step2 : ItemStep :=
  { url := "https://open.osmosis.org/item/2", itemId := "2", attempts := fun _ => pageOk2 }

/-- Second chain step variant with a live next link, for the abort scenario. -/
def step2b : ItemStep :=
  { url := "https://open.osmosis.org/item/2", itemId := "2", attempts := fun _ => pageOk2b }

/-- A chain step that fails extraction on every attempt. -/
def badStep : ItemStep :=
  { url := "https://open.osmosis.org/item/3", itemId := "3", attempts := fun _ => pageBad }

/-- A two-page, well-formed chain. -/
def sampleChain : List ItemStep := [step1, step2]

/-- Attempt sequence that fails structurally four times and then shows a page
whose only fault is a missing image. -/
def failThenImgAttempts : Nat → Page :=
  fun i => if i < 4 then pageBad else pageImgMissing

/-- A sample question for grouper witnesses. -/
def sampleQuestion : Question :=
  { id := "101", question := "Q\n\n", allAnswers := ["A"], correctAnswer := "A", hints := "" }

/-- The harvested playlist node reused by the matcher counterexample. -/
def playlistNode : TopicNode :=
  { sourceId := "PL-genpath", title := "Genetics pathology", thumbnail := none }

/-- A harvested-playlists map holding only `playlistNode`. -/
def sampleTopicsMap : String → Option TopicNode :=
  fun s => if s = "Genetics pathology" then some playlistNode else none

/-! ## Helper lemmas -/

/-- Trace and result of the retry loop when the first `remaining` attempts
starting at index `i` all fail: each failure re-navigates and sleeps
`2 ^ attempt` seconds, and the loop falls through to the degraded pass on the
page captured after the last re-navigation. -/
theorem retryAux_all_fail (attempts : Nat → Page) (itemId url : String) :
    ∀ remaining i : Nat,
    (∀ j, j < remaining → exceptIsOk (fetchAssessmentItem (attempts (i + j)) itemId false) = false) →
    extractWithRetryAux attempts itemId url remaining i =
      (backoffEvents url remaining i, fetchAssessmentItem (attempts (i + remaining)) itemId true) := by
  intro remaining
  induction remaining with
  | zero => intro i _; simp [extractWithRetryAux, backoffEvents]
  | succ r ih =>
    intro i h
    have h0 := h 0 (Nat.succ_pos r)
    rw [Nat.add_zero] at h0
    cases hfi : fetchAssessmentItem (attempts i) itemId false with
    | ok res => rw [hfi] at h0; simp [exceptIsOk] at h0
    | error e =>
      have ih2 := ih (i + 1) (fun j hj => by
        have hh := h (j + 1) (by omega)
        rwa [show i + (j + 1) = i + 1 + j from by omega] at hh)
      simp only [extractWithRetryAux, hfi, ih2, backoffEvents]
      rw [show i + 1 + r = i + (r + 1) from by omega]

/-- A child whose single image block lacks its `img` tag is skipped in
degraded mode. -/
theorem processChild_missing_skip (c : DomChild) (h : isMissingImageChild c = true) :
    processChild true c = .ok none := by
  unfold isMissingImageChild at h
  cases hc : c.imageBlocks with
  | nil => rw [hc] at h; simp at h
  | cons a tl =>
    cases tl with
    | nil =>
      rw [hc] at h
      simp only at h
      cases hb : a.imgSrc with
      | none => simp [processChild, hc, hb]
      | some s => rw [hb] at h; simp at h
    | cons b tl2 => rw [hc] at h; simp at h

/-- Only a missing-image child is skipped by `processChild` in degraded
mode. -/
theorem processChild_ok_none_missing (c : DomChild) (h : processChild true c = .ok none) :
    isMissingImageChild c = true := by
  cases hc : c.imageBlocks with
  | nil => simp [processChild, hc] at h
  | cons a tl =>
    cases tl with
    | nil =>
      cases hb : a.imgSrc with
      | none => simp [isMissingImageChild, hc, hb]
      | some s => simp [processChild, hc, hb] at h
    | cons b tl2 => simp [processChild, hc] at h

/-- In degraded mode the extractor's output is the output on the fragment
with every missing-image child removed. -/
theorem processChildren_skip_filter (cs : List DomChild) :
    processChildren true cs = processChildren true (cs.filter fun c => !(isMissingImageChild c)) := by
  induction cs with
  | nil => rfl
  | cons c rest ih =>
    cases hm : isMissingImageChild c with
    | true =>
      have hc := processChild_missing_skip c hm
      simp only [List.filter_cons, hm, Bool.not_true, processChildren, hc]
      exact ih
    | false =>
      simp only [List.filter_cons, hm, Bool.not_false]
      cases hpc : processChild true c with
      | error e => simp [processChildren, hpc]
      | ok o =>
        cases o with
        | none =>
          have hmiss := processChild_ok_none_missing c hpc
          rw [hm] at hmiss
          cases hmiss
        | some md =>
          simp only [processChildren, hpc]
          rw [ih]

/-- A child with two or more image blocks trips the multiple-images assert,
whatever the flag. -/
theorem processChild_multi (skip : Bool) (c : DomChild) (h : 2 ≤ c.imageBlocks.length) :
    processChild skip c = .error .multipleImages := by
  cases hc : c.imageBlocks with
  | nil => rw [hc] at h; simp at h
  | cons a tl =>
    cases tl with
    | nil => rw [hc] at h; simp at h
    | cons b tl2 => simp [processChild, hc]

/-- The extractor fails on any fragment one of whose children holds two or
more image blocks. -/
theorem processChildren_multi (skip : Bool) (cs : List DomChild) (c : DomChild)
    (hmem : c ∈ cs) (h2 : 2 ≤ c.imageBlocks.length) :
    ∃ e, processChildren skip cs = .error e := by
  induction cs with
  | nil => cases hmem
  | cons d rest ih =>
    rcases List.mem_cons.mp hmem with rfl | hmem2
    · exact ⟨.multipleImages, by simp [processChildren, processChild_multi skip c h2]⟩
    · cases hpc : processChild skip d with
      | error e => exact ⟨e, by simp [processChildren, hpc]⟩
      | ok o =>
        obtain ⟨e, he⟩ := ih hmem2
        cases o with
        | none => exact ⟨e, by simp [processChildren, hpc, he]⟩
        | some md => exact ⟨e, by simp [processChildren, hpc, he]⟩

/-- A nonempty string is truthy in Python. -/
theorem isTruthyStr_some (v : String) (h : v ≠ "") : isTruthyStr (some v) = true := by
  unfold isTruthyStr
  cases hd : v.data with
  | nil =>
    exfalso
    apply h
    cases v with
    | mk data => cases hd; rfl
  | cons a tl => simp [hd]

/-! ## Claims C2, C3, C4, C6, C7 -/

/-- C2 counterexample: with the "Genetics pathology" playlist harvested as a
node whose source id is "PL-genpath", resolving assessment topic "Genetics"
(own id "48") reuses the playlist node and keeps `sourceId = "PL-genpath"`,
not the assessment topic's own identifier "48".  The claim that the merged
TopicContainer takes "the assessment topic's own identifier" is therefore
false. -/
theorem c2_counterexample_merged_identifier :
    (resolveTopic sampleTopicsMap "Genetics" "48" "https://img.png").1.sourceId = "PL-genpath" ∧
    (resolveTopic sampleTopicsMap "Genetics" "48" "https://img.png").1.sourceId ≠ "48" := by
  constructor
  · decide
  · decide

/-- C2 (amended): when the taxonomy map sends the assessment name to a
harvested playlist title, `resolveTopic` reuses that playlist node — keeping
the playlist's identifier — and overwrites only its title (to the composite
"name (playlist)") and its thumbnail; the node is not re-attached.  When the
name is unmapped, mapped to `None`, or the mapped playlist was not harvested,
a fresh node is built from the assessment metadata and attached to the
channel. -/
theorem c2_resolve_topic_amended (topicsMap : String → Option TopicNode)
    (text topicId img : String) :
    (∀ vname tn, questionVideoName text = some vname → vname ≠ "" →
      topicsMap vname = some tn →
      resolveTopic topicsMap text topicId img =
        ({ sourceId := tn.sourceId, title := text ++ " (" ++ vname ++ ")",
           thumbnail := some img }, false)) ∧
    (questionVideoName text = none →
      resolveTopic topicsMap text topicId img =
        ({ sourceId := topicId, title := text, thumbnail := some img }, true)) ∧
    (∀ vname, questionVideoName text = some vname → topicsMap vname = none →
      resolveTopic topicsMap text topicId img =
        ({ sourceId := topicId, title := text, thumbnail := some img }, true)) := by
  refine ⟨?_, ?_, ?_⟩
  · intro vname tn hv hne htm
    simp [resolveTopic, hv, htm, isTruthyStr_some vname hne]
  · intro hv
    simp [resolveTopic, hv, isTruthyStr]
  · intro vname hv htm
    cases hemp : isTruthyStr (some vname) with
    | false => simp [resolveTopic, hv, hemp]
    | true => simp [resolveTopic, hv, hemp, htm]

/-- C2 witness: instantiating the amended claim on the sample map merges
"Genetics" with the harvested "Genetics pathology" playlist node. -/
theorem c2_resolve_topic_witness :
    questionVideoName "Genetics" = some "Genetics pathology" ∧
    sampleTopicsMap "Genetics pathology" = some playlistNode ∧
    resolveTopic sampleTopicsMap "Genetics" "48" "https://img.png" =
      ({ sourceId := "PL-genpath", title := "Genetics (Genetics pathology)",
         thumbnail := some "https://img.png" }, false) :=
  ⟨by decide, by decide,
    (c2_resolve_topic_amended sampleTopicsMap "Genetics" "48" "https://img.png").1
      "Genetics pathology" playlistNode (by decide) (by decide) (by decide)⟩

/-- C3 counterexample: with a page that fails extraction on every attempt,
the retry loop's event trace is navigate, sleep 1, navigate, sleep 2,
navigate, sleep 4, navigate, sleep 8 — so no 0-second wait occurs, an
8-second wait does occur (the claim's delays were 0, 1, 2, 4), and each
re-navigation happens before its wait, not after. -/
theorem c3_counterexample_backoff_trace :
    (extractWithRetry (fun _ => pageBad) "1" "https://u").1 =
      [Event.navigate "https://u", Event.sleep 1, Event.navigate "https://u", Event.sleep 2,
       Event.navigate "https://u", Event.sleep 4, Event.navigate "https://u", Event.sleep 8] ∧
    Event.sleep 0 ∉ (extractWithRetry (fun _ => pageBad) "1" "https://u").1 ∧
    Event.sleep 8 ∈ (extractWithRetry (fun _ => pageBad) "1" "https://u").1 ∧
    (extractWithRetry (fun _ => pageBad) "1" "https://u").1.head? =
      some (Event.navigate "https://u") := by
  refine ⟨by decide, by decide, by decide, by decide⟩

/-- C3 (amended): the walker attempts extraction up to 4 times; each failing
attempt `i` (i = 0, 1, 2, 3) re-navigates to the same URL and then waits
`2 ^ i` seconds, so over four failing attempts the delays are 1, 2, 4 and 8
seconds, each wait coming after its re-navigation. -/
theorem c3_retry_backoff_amended (attempts : Nat → Page) (itemId url : String)
    (h : ∀ i, i < 4 → exceptIsOk (fetchAssessmentItem (attempts i) itemId false) = false) :
    (extractWithRetry attempts itemId url).1 =
      [Event.navigate url, Event.sleep 1, Event.navigate url, Event.sleep 2,
       Event.navigate url, Event.sleep 4, Event.navigate url, Event.sleep 8] := by
  have hall := retryAux_all_fail attempts itemId url 4 0 (fun j hj => by
    simpa using h j hj)
  unfold extractWithRetry
  rw [hall]
  norm_num [backoffEvents]

/-- C3 witness: the amended backoff trace on the concrete always-failing
attempt sequence. -/
theorem c3_retry_backoff_witness :
    (∀ i, i < 4 → exceptIsOk (fetchAssessmentItem (failThenImgAttempts i) "9" false) = false) ∧
    (extractWithRetry failThenImgAttempts "9" "https://u").1 =
      [Event.navigate "https://u", Event.sleep 1, Event.navigate "https://u", Event.sleep 2,
       Event.navigate "https://u", Event.sleep 4, Event.navigate "https://u", Event.sleep 8] :=
  ⟨by decide, c3_retry_backoff_amended failThenImgAttempts "9" "https://u" (by decide)⟩

/-- C4 (confirmed): if all 4 extraction attempts fail, exactly one further
pass runs with `skip_missing_images=true` on the freshly captured page, and
its result — success or error — is the loop's result instead of the stored
error; in degraded mode a missing-image child is skipped (its block is
omitted, so the output equals the output on the fragment without such
children), while a structural fault — missing stem container or missing
correct-answer marker — still errors. -/
theorem c4_degraded_fallback (attempts : Nat → Page) (itemId url : String) :
    ((∀ i, i < 4 → exceptIsOk (fetchAssessmentItem (attempts i) itemId false) = false) →
      (extractWithRetry attempts itemId url).2 = fetchAssessmentItem (attempts 4) itemId true) ∧
    (∀ c, isMissingImageChild c = true → processChild true c = .ok none) ∧
    (∀ cs, processChildren true cs =
      processChildren true (cs.filter fun c => !(isMissingImageChild c))) ∧
    (∀ page pid, page.stem = none →
      fetchAssessmentItem page pid true = .error .missingContainer) ∧
    (∀ page pid md, processTextIntoMarkdown page.stem true = .ok md → page.correct = none →
      fetchAssessmentItem page pid true = .error .missingCorrect) := by
  refine ⟨?_, processChild_missing_skip, processChildren_skip_filter, ?_, ?_⟩
  · intro h
    have hall := retryAux_all_fail attempts itemId url 4 0 (fun j hj => by
      simpa using h j hj)
    unfold extractWithRetry
    rw [hall]
  · intro page pid hstem
    simp [fetchAssessmentItem, processTextIntoMarkdown, hstem]
  · intro page pid md hmd hcor
    simp [fetchAssessmentItem, hmd, hcor]

/-- C4 witness: four structural failures followed by a page whose only fault
is a missing image; the degraded pass succeeds and its Markdown omits the
image block. -/
theorem c4_degraded_fallback_witness :
    (∀ i, i < 4 → exceptIsOk (fetchAssessmentItem (failThenImgAttempts i) "9" false) = false) ∧
    (extractWithRetry failThenImgAttempts "9" "https://u").2 =
      fetchAssessmentItem (failThenImgAttempts 4) "9" true ∧
    fetchAssessmentItem (failThenImgAttempts 4) "9" true =
      .ok ({ id := "9", question := "What is shown?\n\n", allAnswers := ["A", "B"],
             correctAnswer := "A", hints := "\n\nMain Explanation\n---\n\n" }, none) ∧
    fetchAssessmentItem pageBad "9" true = .error .missingContainer :=
  ⟨by decide,
   (c4_degraded_fallback failThenImgAttempts "9" "https://u").1 (by decide),
   by rfl,
   (c4_degraded_fallback failThenImgAttempts "9" "https://u").2.2.2.1 pageBad "9" rfl⟩

/-- C6 counterexample: `"ftp://example.com/a"` has a scheme and is neither
protocol-relative nor root-relative, yet `make_fully_qualified_url` does not
leave it unchanged: anything not starting with "http" is treated as relative
and prefixed with the origin. -/
theorem c6_counterexample_ftp_scheme :
    makeFullyQualifiedUrl "ftp://example.com/a" =
      "https://open.osmosis.org/ftp://example.com/a" ∧
    makeFullyQualifiedUrl "ftp://example.com/a" ≠ "ftp://example.com/a" := by
  constructor
  · decide
  · decide

/-- C6 (amended): URL normalization maps every protocol-relative URL "//x" to
"http://x" and every other root-relative URL "/p" to
"https://open.osmosis.org/p"; of the remaining URLs, exactly those starting
with "http" pass through unchanged, while any other string — scheme or not —
is prefixed with "https://open.osmosis.org/". -/
theorem c6_url_normalization_amended (url : String) :
    (strStartsWith url "//" = true → makeFullyQualifiedUrl url = "http:" ++ url) ∧
    (strStartsWith url "//" = false → strStartsWith url "/" = true →
      makeFullyQualifiedUrl url = "https://open.osmosis.org" ++ url) ∧
    (strStartsWith url "//" = false → strStartsWith url "/" = false →
      strStartsWith url "http" = true → makeFullyQualifiedUrl url = url) ∧
    (strStartsWith url "//" = false → strStartsWith url "/" = false →
      strStartsWith url "http" = false →
      makeFullyQualifiedUrl url = "https://open.osmosis.org/" ++ url) := by
  refine ⟨?_, ?_, ?_, ?_⟩
  · intro h1; simp [makeFullyQualifiedUrl, h1]
  · intro h1 h2; simp [makeFullyQualifiedUrl, h1, h2]
  · intro h1 h2 h3; simp [makeFullyQualifiedUrl, h1, h2, h3]
  · intro h1 h2 h3; simp [makeFullyQualifiedUrl, h1, h2, h3]

/-- C6 witness: the three normalization examples from the spec. -/
theorem c6_url_normalization_witness :
    makeFullyQualifiedUrl "//x.com/a" = "http://x.com/a" ∧
    makeFullyQualifiedUrl "/topics/5" = "https://open.osmosis.org/topics/5" ∧
    makeFullyQualifiedUrl "https://open.osmosis.org/item/9" =
      "https://open.osmosis.org/item/9" :=
  ⟨(c6_url_normalization_amended "//x.com/a").1 (by decide),
   (c6_url_normalization_amended "/topics/5").2.1 (by decide) (by decide),
   (c6_url_normalization_amended "https://open.osmosis.org/item/9").2.2.1
     (by decide) (by decide) (by decide)⟩

/-- C7 (confirmed): the Markdown extractor fails on any fragment one of whose
children holds more than one image block, whatever the flag; a child with one
image block but no inner `img` tag is skipped when `skip_missing_images` is
true and raises when it is false; and a child with an image reference emits
"![caption](src)" followed by the caption text. -/
theorem c7_markdown_extractor_images (skip : Bool) (cs : List DomChild) (c : DomChild) :
    (c ∈ cs → 2 ≤ c.imageBlocks.length → ∃ e, processChildren skip cs = .error e) ∧
    (∀ cap cls txt, processChild true ⟨[⟨none, cap⟩], cls, txt⟩ = .ok none) ∧
    (∀ cap cls txt, processChild false ⟨[⟨none, cap⟩], cls, txt⟩ = .error .missingImgTag) ∧
    (∀ src cap cls txt, processChild skip ⟨[⟨some src, cap⟩], cls, txt⟩ =
      .ok (some ("![" ++ cap ++ "](" ++ src ++ ")\n\n" ++ cap ++ "\n\n"))) := by
  refine ⟨fun hmem h2 => processChildren_multi skip cs c hmem h2, ?_, ?_, ?_⟩
  · intro cap cls txt; simp [processChild]
  · intro cap cls txt; simp [processChild]
  · intro src cap cls txt; simp [processChild]

/-! ## Grouper and walker lemmas -/

/-- Appending a question reaches exactly the last unit. -/
theorem addLast_append (us : List ExerciseUnit) (u : ExerciseUnit) (q : Question) :
    addLast (us ++ [u]) q = us ++ [{ u with questions := u.questions ++ [q] }] := by
  induction us with
  | nil => rfl
  | cons w ws ih =>
    obtain ⟨y, ys, hys⟩ : ∃ y ys, ws ++ [u] = y :: ys := by
      cases ws with
      | nil => exact ⟨u, [], rfl⟩
      | cons a as => exact ⟨a, as ++ [u], rfl⟩
    calc addLast ((w :: ws) ++ [u]) q
        = w :: addLast (ws ++ [u]) q := by rw [List.cons_append, hys]; rfl
      _ = w :: (ws ++ [{ u with questions := u.questions ++ [q] }]) := by rw [ih]
      _ = (w :: ws) ++ [{ u with questions := u.questions ++ [q] }] := rfl

/-- `addLast` never changes the number of units. -/
theorem addLast_length (us : List ExerciseUnit) (q : Question) :
    (addLast us q).length = us.length := by
  induction us with
  | nil => rfl
  | cons w ws ih =>
    cases ws with
    | nil => rfl
    | cons x xs => simpa [addLast] using ih

/-- Folding several questions into the last unit. -/
theorem addLastAll_append (us : List ExerciseUnit) (qs : List Question) (u : ExerciseUnit) :
    addLastAll (us ++ [u]) qs = us ++ [{ u with questions := u.questions ++ qs }] := by
  induction qs generalizing u with
  | nil => simp [addLastAll]
  | cons q qs ih =>
    show addLastAll (addLast (us ++ [u]) q) qs = _
    rw [addLast_append, ih { u with questions := u.questions ++ [q] }]
    simp

/-- `openUnit` never changes the item count. -/
theorem openUnit_itemCount (short : String) (thumb : Option String) (s : WalkState)
    (itemId : String) : (openUnit short thumb s itemId).itemCount = s.itemCount := by
  unfold openUnit
  split <;> rfl

/-- `acceptItem` increments the item count by one. -/
theorem acceptItem_itemCount (short : String) (thumb : Option String) (s : WalkState)
    (itemId : String) (q : Question) :
    (acceptItem short thumb s itemId q).itemCount = s.itemCount + 1 := by
  unfold acceptItem addQuestion
  simp [openUnit_itemCount]

/-- The grouper adds one to the item count per item. -/
theorem runGrouper_itemCount (short : String) (thumb : Option String) :
    ∀ (items : List (String × Question)) (s : WalkState),
    (runGrouper short thumb items s).itemCount = s.itemCount + items.length := by
  intro items
  induction items with
  | nil => intro s; simp [runGrouper]
  | cons p rest ih =>
    intro s
    obtain ⟨pid, q⟩ := p
    simp only [runGrouper, ih, acceptItem_itemCount, List.length_cons]
    omega

/-- The grouper processes concatenated inputs sequentially. -/
theorem runGrouper_append (short : String) (thumb : Option String) :
    ∀ (a b : List (String × Question)) (s : WalkState),
    runGrouper short thumb (a ++ b) s = runGrouper short thumb b (runGrouper short thumb a s) := by
  intro a
  induction a with
  | nil => intro b s; rfl
  | cons p rest ih =>
    intro b s
    obtain ⟨pid, q⟩ := p
    calc runGrouper short thumb (((pid, q) :: rest) ++ b) s
        = runGrouper short thumb (rest ++ b) (acceptItem short thumb s pid q) := rfl
      _ = runGrouper short thumb b
            (runGrouper short thumb rest (acceptItem short thumb s pid q)) := ih b _
      _ = runGrouper short thumb b (runGrouper short thumb ((pid, q) :: rest) s) := rfl

/-- Feeding up to `5 - count % 5` items into a state whose count is not
aligned only fills the currently open unit. -/
theorem runGrouper_fill (short : String) (thumb : Option String) :
    ∀ (ts : List (String × Question)) (s : WalkState),
    s.itemCount % 5 ≠ 0 → ts.length + s.itemCount % 5 ≤ 5 →
    runGrouper short thumb ts s =
      { units := addLastAll s.units (ts.map Prod.snd),
        itemCount := s.itemCount + ts.length,
        firstItemIndexInExercise := s.firstItemIndexInExercise } := by
  intro ts
  induction ts with
  | nil =>
    intro s h1 h2
    simp [runGrouper, addLastAll]
  | cons t ts ih =>
    intro s h1 h2
    obtain ⟨tid, q⟩ := t
    have hopen : openUnit short thumb s tid = s := by
      unfold openUnit
      rw [if_neg]
      simpa [QUESTIONS_PER_EXERCISE] using h1
    simp only [runGrouper, acceptItem, hopen]
    cases hts : ts with
    | nil =>
      simp [runGrouper, addQuestion, addLastAll]
    | cons t2 ts2 =>
      rw [← hts]
      have hlen2 : 1 ≤ ts.length := by rw [hts]; simp
      have hmod : (addQuestion s q).itemCount % 5 ≠ 0 := by
        simp only [addQuestion]
        simp only [List.length_cons] at h2
        omega
      have hle : ts.length + (addQuestion s q).itemCount % 5 ≤ 5 := by
        simp only [addQuestion]
        simp only [List.length_cons] at h2
        omega
      rw [ih (addQuestion s q) hmod hle]
      simp only [addQuestion]
      rw [show s.itemCount + 1 + ts.length = s.itemCount + (ts.length + 1) from by omega]
      rfl

/-- Processing the first item of a chunk (aligned count) opens a unit and the
next up-to-four items fill it. -/
theorem runGrouper_chunk (short : String) (thumb : Option String) (pid : String) (q : Question)
    (rest : List (String × Question)) (s : WalkState) (h5 : s.itemCount % 5 = 0) :
    runGrouper short thumb ((pid, q) :: rest) s =
      runGrouper short thumb (rest.drop 4)
        { units := s.units ++ [chunkUnit short thumb s.itemCount pid q rest],
          itemCount := s.itemCount + 1 + (rest.take 4).length,
          firstItemIndexInExercise := s.itemCount } := by
  have haccept : acceptItem short thumb s pid q =
      { units := s.units ++ [{ freshUnit short thumb s.itemCount pid with questions := [q] }],
        itemCount := s.itemCount + 1,
        firstItemIndexInExercise := s.itemCount } := by
    unfold acceptItem addQuestion openUnit
    rw [if_pos (show s.itemCount % QUESTIONS_PER_EXERCISE = 0 from h5)]
    simp [addLast_append, freshUnit]
  have htake : (rest.take 4).length = min 4 rest.length := List.length_take 4 rest
  have hfill := runGrouper_fill short thumb (rest.take 4) (acceptItem short thumb s pid q)
    (by rw [haccept]; show (s.itemCount + 1) % 5 ≠ 0; omega)
    (by rw [haccept]; show (rest.take 4).length + (s.itemCount + 1) % 5 ≤ 5; omega)
  calc runGrouper short thumb ((pid, q) :: rest) s
      = runGrouper short thumb rest (acceptItem short thumb s pid q) := rfl
    _ = runGrouper short thumb (rest.take 4 ++ rest.drop 4) (acceptItem short thumb s pid q) := by
        rw [List.take_append_drop]
    _ = runGrouper short thumb (rest.drop 4)
          (runGrouper short thumb (rest.take 4) (acceptItem short thumb s pid q)) := by
        rw [runGrouper_append]
    _ = _ := by
        rw [hfill, haccept]
        simp only [addLastAll_append]
        rfl


/-- From an aligned count, the grouper appends exactly the chunked units. -/
theorem runGrouper_aligned (short : String) (thumb : Option String) :
    ∀ (n : Nat) (items : List (String × Question)) (s : WalkState), items.length ≤ n →
    s.itemCount % 5 = 0 →
    (runGrouper short thumb items s).units = s.units ++ groupChunks short thumb s.itemCount items := by
  intro n
  induction n with
  | zero =>
    intro items s hlen h5
    have hnil : items = [] := List.length_eq_zero.mp (Nat.le_zero.mp hlen)
    subst hnil
    simp [runGrouper, groupChunks]
  | succ n ih =>
    intro items s hlen h5
    cases items with
    | nil => simp [runGrouper, groupChunks]
    | cons p rest =>
      obtain ⟨pid, q⟩ := p
      have hlen' : rest.length ≤ n := by
        simp only [List.length_cons] at hlen
        omega
      rw [runGrouper_chunk short thumb pid q rest s h5]
      by_cases hr : rest.length ≤ 4
      · have hdrop : rest.drop 4 = [] := List.drop_eq_nil_of_le hr
        rw [hdrop]
        simp only [runGrouper, groupChunks, hdrop]
      · push_neg at hr
        have htake4 : (rest.take 4).length = 4 := by
          rw [List.length_take]
          omega
        have hdroplen : (rest.drop 4).length ≤ n := by
          rw [List.length_drop]
          omega
        rw [htake4]
        have hmid := ih (rest.drop 4)
          { units := s.units ++ [chunkUnit short thumb s.itemCount pid q rest],
            itemCount := s.itemCount + 1 + 4,
            firstItemIndexInExercise := s.itemCount }
          hdroplen (by show (s.itemCount + 1 + 4) % 5 = 0; omega)
        rw [hmid]
        simp only [groupChunks]
        rw [List.append_assoc]
        rfl

/-- Number of chunked units: the ceiling of the item count over five. -/
theorem groupChunks_length (short : String) (thumb : Option String) :
    ∀ (n : Nat) (items : List (String × Question)) (c : Nat), items.length ≤ n →
    (groupChunks short thumb c items).length = (items.length + 4) / 5 := by
  intro n
  induction n with
  | zero =>
    intro items c hlen
    have hnil : items = [] := List.length_eq_zero.mp (Nat.le_zero.mp hlen)
    subst hnil
    simp [groupChunks]
  | succ n ih =>
    intro items c hlen
    cases items with
    | nil => simp [groupChunks]
    | cons p rest =>
      obtain ⟨pid, q⟩ := p
      simp only [List.length_cons] at hlen
      have hdl : (rest.drop 4).length ≤ n := by
        rw [List.length_drop]
        omega
      simp only [groupChunks, List.length_cons, ih (rest.drop 4) (c + 5) hdl, List.length_drop]
      omega

/-- Every chunked unit other than the last holds exactly five questions. -/
theorem groupChunks_get?_questions (short : String) (thumb : Option String) :
    ∀ (n : Nat) (items : List (String × Question)) (c i : Nat) (u : ExerciseUnit),
    items.length ≤ n → (groupChunks short thumb c items).get? i = some u →
    i + 1 < (groupChunks short thumb c items).length → u.questions.length = 5 := by
  intro n
  induction n with
  | zero =>
    intro items c i u hlen hget hi
    have hnil : items = [] := List.length_eq_zero.mp (Nat.le_zero.mp hlen)
    subst hnil
    simp [groupChunks] at hget
  | succ n ih =>
    intro items c i u hlen hget hi
    cases items with
    | nil => simp [groupChunks] at hget
    | cons p rest =>
      obtain ⟨pid, q⟩ := p
      simp only [List.length_cons] at hlen
      have hdl : (rest.drop 4).length ≤ n := by
        rw [List.length_drop]
        omega
      simp only [groupChunks] at hget hi
      cases i with
      | zero =>
        simp only [List.get?_cons_zero, Option.some.injEq] at hget
        have hlen2 := groupChunks_length short thumb (rest.drop 4).length (rest.drop 4)
          (c + 5) (le_refl _)
        simp only [List.length_cons] at hi
        rw [List.length_drop] at hlen2
        have hrest : 5 ≤ rest.length := by omega
        rw [← hget]
        simp only [chunkUnit, freshUnit, List.length_cons, List.length_map, List.length_take]
        omega
      | succ j =>
        simp only [List.get?_cons_succ] at hget
        simp only [List.length_cons] at hi
        exact ih (rest.drop 4) (c + 5) j u hdl hget (by omega)

/-- Title of the `i`-th chunked unit. -/
theorem groupChunks_get?_title (short : String) (thumb : Option String) :
    ∀ (n : Nat) (items : List (String × Question)) (c i : Nat) (u : ExerciseUnit),
    items.length ≤ n → (groupChunks short thumb c items).get? i = some u →
    u.title = titleExercise short (c + 5 * i + 1) (c + 5 * i + 5) := by
  intro n
  induction n with
  | zero =>
    intro items c i u hlen hget
    have hnil : items = [] := List.length_eq_zero.mp (Nat.le_zero.mp hlen)
    subst hnil
    simp [groupChunks] at hget
  | succ n ih =>
    intro items c i u hlen hget
    cases items with
    | nil => simp [groupChunks] at hget
    | cons p rest =>
      obtain ⟨pid, q⟩ := p
      simp only [List.length_cons] at hlen
      have hdl : (rest.drop 4).length ≤ n := by
        rw [List.length_drop]
        omega
      simp only [groupChunks] at hget
      cases i with
      | zero =>
        simp only [List.get?_cons_zero, Option.some.injEq] at hget
        rw [← hget]
        norm_num [chunkUnit, freshUnit, QUESTIONS_PER_EXERCISE]
      | succ j =>
        simp only [List.get?_cons_succ] at hget
        have := ih (rest.drop 4) (c + 5) j u hdl hget
        rw [this]
        rw [show c + 5 * (j + 1) + 1 = c + 5 + 5 * j + 1 from by ring,
            show c + 5 * (j + 1) + 5 = c + 5 + 5 * j + 5 from by ring]

/-- The chunked units carry exactly the input questions, in order. -/
theorem groupChunks_flatten (short : String) (thumb : Option String) :
    ∀ (n : Nat) (items : List (String × Question)) (c : Nat), items.length ≤ n →
    ((groupChunks short thumb c items).map (fun u => u.questions)).flatten =
      items.map Prod.snd := by
  intro n
  induction n with
  | zero =>
    intro items c hlen
    have hnil : items = [] := List.length_eq_zero.mp (Nat.le_zero.mp hlen)
    subst hnil
    simp [groupChunks]
  | succ n ih =>
    intro items c hlen
    cases items with
    | nil => simp [groupChunks]
    | cons p rest =>
      obtain ⟨pid, q⟩ := p
      simp only [List.length_cons] at hlen
      have hdl : (rest.drop 4).length ≤ n := by
        rw [List.length_drop]
        omega
      simp only [groupChunks, chunkUnit, freshUnit, List.map_cons, List.flatten_cons,
        ih (rest.drop 4) (c + 5) hdl]
      rw [List.cons_append, ← List.map_append, List.take_append_drop]

/-- Retitling never changes the number of units. -/
theorem setLastTitle_length :
    ∀ (us : List ExerciseUnit) (t : String), (setLastTitle us t).length = us.length := by
  intro us
  induction us with
  | nil => intro t; rfl
  | cons w ws ih =>
    intro t
    cases ws with
    | nil => rfl
    | cons x xs => simpa [setLastTitle] using ih t

/-- Retitling the last unit leaves every earlier unit unchanged. -/
theorem setLastTitle_get?_lt :
    ∀ (us : List ExerciseUnit) (t : String) (i : Nat), i + 1 < us.length →
    (setLastTitle us t).get? i = us.get? i := by
  intro us
  induction us with
  | nil => intro t i h; simp at h
  | cons u ws ih =>
    intro t i h
    cases ws with
    | nil => simp at h
    | cons v rest =>
      cases i with
      | zero => rfl
      | succ j =>
        show (u :: setLastTitle (v :: rest) t).get? (j + 1) = (u :: v :: rest).get? (j + 1)
        simp only [List.get?_cons_succ]
        apply ih
        simp only [List.length_cons] at h ⊢
        omega

/-- Retitling sets exactly the last unit's title. -/
theorem setLastTitle_getLast? :
    ∀ (us : List ExerciseUnit) (t : String), us ≠ [] →
    ∃ u, (setLastTitle us t).getLast? = some u ∧ u.title = t := by
  intro us
  induction us with
  | nil => intro t h; exact absurd rfl h
  | cons u ws ih =>
    intro t _
    cases ws with
    | nil => exact ⟨{ u with title := t }, rfl, rfl⟩
    | cons v rest =>
      obtain ⟨u', hS, ht⟩ := ih t (by simp)
      obtain ⟨y, ys, hys⟩ : ∃ y ys, setLastTitle (v :: rest) t = y :: ys := by
        cases rest with
        | nil => exact ⟨{ v with title := t }, [], rfl⟩
        | cons w ws2 => exact ⟨v, setLastTitle (w :: ws2) t, rfl⟩
      refine ⟨u', ?_, ht⟩
      show (u :: setLastTitle (v :: rest) t).getLast? = some u'
      rw [hys, List.getLast?_cons_cons, ← hys]
      exact hS

/-- Opening an empty unit does not change the emitted questions. -/
theorem emittedQuestions_openUnit (short : String) (thumb : Option String) (s : WalkState)
    (itemId : String) :
    emittedQuestions (openUnit short thumb s itemId) = emittedQuestions s := by
  unfold openUnit
  split
  · simp [emittedQuestions, freshUnit]
  · rfl

/-- From the initial state, the grouper emits exactly the input questions in
order. -/
theorem emittedQuestions_init (short : String) (thumb : Option String)
    (items : List (String × Question)) :
    emittedQuestions (runGrouper short thumb items initState) = items.map Prod.snd := by
  unfold emittedQuestions
  rw [runGrouper_aligned short thumb items.length items initState (le_refl _) rfl]
  show ((([] : List ExerciseUnit) ++ groupChunks short thumb 0 items).map
    (fun u => u.questions)).flatten = items.map Prod.snd
  rw [List.nil_append]
  exact groupChunks_flatten short thumb items.length items 0 (le_refl _)

/-- Definitional unfolding of `chainItems` on a cons cell. -/
theorem chainItems_cons (step : ItemStep) (rest : List ItemStep) :
    chainItems (step :: rest) =
      match stepResult step with
      | .ok (q, _) => (step.itemId, q) :: chainItems rest
      | .error _ => chainItems rest := rfl

/-- Definitional unfolding of `chainOk` on a cons cell. -/
theorem chainOk_cons (step : ItemStep) (rest : List ItemStep) :
    chainOk (step :: rest) =
      match stepResult step with
      | .error _ => false
      | .ok (_, nextUrl) =>
        match rest with
        | [] => nextUrl.isNone
        | next :: _ => (nextUrl == some next.url) && chainOk rest := rfl

/-- Definitional unfolding of `walkChain` on a cons cell. -/
theorem walkChain_cons (short : String) (thumb : Option String) (step : ItemStep)
    (rest : List ItemStep) (s : WalkState) :
    walkChain short thumb (step :: rest) s =
      match stepResult step with
      | .error e => (openUnit short thumb s step.itemId, some e)
      | .ok (q, nextUrl) =>
        match nextUrl with
        | none => (addQuestion (openUnit short thumb s step.itemId) q, none)
        | some _ =>
          walkChain short thumb rest (addQuestion (openUnit short thumb s step.itemId) q) := rfl

/-- A well-formed chain runs the walker to completion, grouping exactly the
chain's items. -/
theorem walkChain_ok (short : String) (thumb : Option String) :
    ∀ (chain : List ItemStep) (s : WalkState), chainOk chain = true →
    walkChain short thumb chain s = (runGrouper short thumb (chainItems chain) s, none) := by
  intro chain
  induction chain with
  | nil => intro s _; rfl
  | cons step rest ih =>
    intro s h
    rw [chainOk_cons] at h
    rw [walkChain_cons, chainItems_cons]
    cases hs : stepResult step with
    | error e => rw [hs] at h; simp at h
    | ok res =>
      obtain ⟨q, nextUrl⟩ := res
      rw [hs] at h
      cases rest with
      | nil =>
        have hn : nextUrl = none := by
          simpa [Option.isNone_iff_eq_none] using h
        subst hn
        rfl
      | cons next rest2 =>
        have hh : (nextUrl == some next.url) = true ∧ chainOk (next :: rest2) = true := by
          simpa using h
        obtain ⟨hurl, hrest⟩ := hh
        have hnu : nextUrl = some next.url := by simpa using hurl
        subst hnu
        show walkChain short thumb (next :: rest2)
            (addQuestion (openUnit short thumb s step.itemId) q) =
          (runGrouper short thumb ((step.itemId, q) :: chainItems (next :: rest2)) s, none)
        rw [ih _ hrest]
        rfl

/-- A well-formed chain yields one grouped item per chain step. -/
theorem chainItems_length_ok :
    ∀ (chain : List ItemStep), chainOk chain = true →
    (chainItems chain).length = chain.length := by
  intro chain
  induction chain with
  | nil => intro _; rfl
  | cons step rest ih =>
    intro h
    rw [chainOk_cons] at h
    rw [chainItems_cons]
    cases hs : stepResult step with
    | error e => rw [hs] at h; simp at h
    | ok res =>
      obtain ⟨q, nextUrl⟩ := res
      rw [hs] at h
      cases rest with
      | nil => rfl
      | cons next rest2 =>
        have hh : (nextUrl == some next.url) = true ∧ chainOk (next :: rest2) = true := by
          simpa using h
        show ((step.itemId, q) :: chainItems (next :: rest2)).length = (next :: rest2).length + 1
        rw [List.length_cons, ih hh.2]

/-- A hard failure after a clean prefix aborts the walk with exactly the
prefix's grouped state (plus the unit freshly opened for the failing page). -/
theorem walkChain_abort (short : String) (thumb : Option String) (bad : ItemStep)
    (e : ExtractError) (hbad : stepResult bad = .error e) :
    ∀ (pre : List ItemStep) (s : WalkState), stepsOkSome pre = true →
    walkChain short thumb (pre ++ [bad]) s =
      (openUnit short thumb (runGrouper short thumb (chainItems pre) s) bad.itemId, some e) := by
  intro pre
  induction pre with
  | nil =>
    intro s _
    show walkChain short thumb (bad :: []) s = _
    rw [walkChain_cons, hbad]
    rfl
  | cons p rest ih =>
    intro s hok
    cases hsp : stepResult p with
    | error e2 => simp [stepsOkSome, List.all_cons, hsp] at hok
    | ok res =>
      obtain ⟨q, nextUrl⟩ := res
      cases hnu : nextUrl with
      | none => rw [hnu] at hsp; simp [stepsOkSome, List.all_cons, hsp] at hok
      | some u =>
        rw [hnu] at hsp
        have hrest : stepsOkSome rest = true := by
          simpa [stepsOkSome, List.all_cons, hsp] using hok
        show walkChain short thumb (p :: (rest ++ [bad])) s = _
        rw [walkChain_cons, hsp]
        show walkChain short thumb (rest ++ [bad])
          (addQuestion (openUnit short thumb s p.itemId) q) = _
        rw [ih _ hrest, chainItems_cons, hsp]
        rfl

/-- Inversion of the parser's next-URL computation: a successful parse
returns no next URL exactly when the link is absent or its target ends in
the sentinel "null". -/
theorem fetchAssessmentItem_next_none (page : Page) (pid : String) (q : Question)
    (next : Option String) (h : fetchAssessmentItem page pid false = .ok (q, next)) :
    (next = none ↔ page.nextHref = none ∨
      ∃ href, page.nextHref = some href ∧ strEndsWith href "null" = true) := by
  unfold fetchAssessmentItem at h
  cases h1 : processTextIntoMarkdown page.stem false with
  | error e => rw [h1] at h; cases h
  | ok md =>
    rw [h1] at h
    cases h2 : page.correct with
    | none => rw [h2] at h; cases h
    | some cor =>
      rw [h2] at h
      cases h3 : processTextIntoMarkdown page.explainAns false with
      | error e => rw [h3] at h; cases h
      | ok hint1 =>
        rw [h3] at h
        cases h4 : processTextIntoMarkdown page.explain false with
        | error e => rw [h4] at h; cases h
        | ok hint2 =>
          rw [h4] at h
          simp only [Except.ok.injEq, Prod.mk.injEq] at h
          obtain ⟨_, hnext⟩ := h
          rw [← hnext]
          cases h5 : page.nextHref with
          | none => simp
          | some href =>
            cases h6 : strEndsWith href "null" with
            | true =>
              refine ⟨fun _ => Or.inr ⟨href, rfl, h6⟩, fun _ => ?_⟩
              simp [h6]
            | false =>
              refine ⟨fun hcontra => ?_, fun hcontra => ?_⟩
              · simp [h6] at hcontra
              · rcases hcontra with hnone | ⟨href2, hhref2, hend2⟩
                · cases hnone
                · rw [Option.some.injEq] at hhref2
                  rw [← hhref2] at hend2
                  rw [hend2] at h6
                  simp at h6

/-! ## Claims C1, C5, C8, C9, C10 -/

/-- C5 (confirmed): on a finite next-link chain of length K whose final page
yields no next URL (absent link or `null` sentinel), the walker terminates
with no error, emits exactly K items in link-chain order, and the parser
returns no next URL exactly when the link is absent or ends in the
sentinel. -/
theorem c5_pagination_terminates (short : String) (thumb : Option String)
    (chain : List ItemStep) (h : chainOk chain = true) :
    (walkChain short thumb chain initState).2 = none ∧
    (walkChain short thumb chain initState).1.itemCount = chain.length ∧
    emittedQuestions (walkChain short thumb chain initState).1 =
      (chainItems chain).map Prod.snd ∧
    (∀ page pid q next, fetchAssessmentItem page pid false = .ok (q, next) →
      (next = none ↔ page.nextHref = none ∨
        ∃ href, page.nextHref = some href ∧ strEndsWith href "null" = true)) := by
  have hwk := walkChain_ok short thumb chain initState h
  refine ⟨by rw [hwk], ?_, ?_, fetchAssessmentItem_next_none⟩
  · rw [hwk]
    show (runGrouper short thumb (chainItems chain) initState).itemCount = chain.length
    rw [runGrouper_itemCount, chainItems_length_ok chain h]
    simp [initState]
  · rw [hwk]
    exact emittedQuestions_init short thumb (chainItems chain)

/-- C5 witness: the two-page sample chain with a sentinel final link. -/
theorem c5_pagination_terminates_witness :
    chainOk sampleChain = true ∧
    (walkChain "Genetics" none sampleChain initState).2 = none ∧
    (walkChain "Genetics" none sampleChain initState).1.itemCount = sampleChain.length :=
  ⟨by decide, (c5_pagination_terminates "Genetics" none sampleChain (by decide)).1,
   (c5_pagination_terminates "Genetics" none sampleChain (by decide)).2.1⟩

/-- C8 (confirmed): a new exercise unit is opened exactly when the running
count is a multiple of 5; the fresh unit takes the current item's id, a
provisional title spanning positions count+1 through count+5, and is appended
as the next child; every item is appended to the currently open (last)
unit. -/
theorem c8_exercise_unit_opening (short : String) (thumb : Option String)
    (s : WalkState) (itemId : String) (q : Question) :
    (s.itemCount % QUESTIONS_PER_EXERCISE = 0 →
      (acceptItem short thumb s itemId q).units =
        s.units ++ [{ freshUnit short thumb s.itemCount itemId with questions := [q] }]) ∧
    (freshUnit short thumb s.itemCount itemId).sourceId = itemId ∧
    (freshUnit short thumb s.itemCount itemId).title =
      titleExercise short (s.itemCount + 1) (s.itemCount + QUESTIONS_PER_EXERCISE) ∧
    (s.itemCount % QUESTIONS_PER_EXERCISE ≠ 0 →
      (acceptItem short thumb s itemId q).units = addLast s.units q ∧
      (acceptItem short thumb s itemId q).units.length = s.units.length) ∧
    (acceptItem short thumb s itemId q).itemCount = s.itemCount + 1 := by
  refine ⟨?_, rfl, rfl, ?_, acceptItem_itemCount short thumb s itemId q⟩
  · intro h5
    unfold acceptItem addQuestion openUnit
    rw [if_pos h5]
    simp [addLast_append, freshUnit]
  · intro h5
    unfold acceptItem addQuestion openUnit
    rw [if_neg h5]
    exact ⟨rfl, addLast_length s.units q⟩

/-- C8 witness: from the initial state, accepting an item opens the first
unit with that item's id and the provisional 1-5 title. -/
theorem c8_exercise_unit_opening_witness :
    initState.itemCount % QUESTIONS_PER_EXERCISE = 0 ∧
    (acceptItem "Genetics" none initState "101" sampleQuestion).units =
      initState.units ++
        [{ freshUnit "Genetics" none initState.itemCount "101" with
           questions := [sampleQuestion] }] :=
  ⟨rfl, (c8_exercise_unit_opening "Genetics" none initState "101" sampleQuestion).1 rfl⟩

/-- C9 (confirmed): when the degraded pass also fails, the walk aborts with
no rollback — the returned state is exactly the grouped prefix (plus the
empty unit opened for the failing page when its index is a multiple of 5),
and the emitted questions are exactly those extracted before the failure,
including those in a partially filled unit. -/
theorem c9_no_rollback_on_abort (short : String) (thumb : Option String)
    (pre : List ItemStep) (bad : ItemStep) (e : ExtractError)
    (hpre : stepsOkSome pre = true) (hbad : stepResult bad = .error e) :
    walkChain short thumb (pre ++ [bad]) initState =
      (openUnit short thumb (runGrouper short thumb (chainItems pre) initState) bad.itemId,
        some e) ∧
    emittedQuestions (walkChain short thumb (pre ++ [bad]) initState).1 =
      (chainItems pre).map Prod.snd := by
  have hab := walkChain_abort short thumb bad e hbad pre initState hpre
  refine ⟨hab, ?_⟩
  rw [hab]
  show emittedQuestions (openUnit short thumb
    (runGrouper short thumb (chainItems pre) initState) bad.itemId) = _
  rw [emittedQuestions_openUnit]
  exact emittedQuestions_init short thumb (chainItems pre)

/-- C9 witness: two extracted items followed by a hard failure leave both
questions attached inside one partially filled unit. -/
theorem c9_no_rollback_on_abort_witness :
    stepsOkSome [step1, step2b] = true ∧
    stepResult badStep = .error .missingContainer ∧
    walkChain "Genetics" none ([step1, step2b] ++ [badStep]) initState =
      (openUnit "Genetics" none
        (runGrouper "Genetics" none (chainItems [step1, step2b]) initState) badStep.itemId,
        some .missingContainer) :=
  ⟨by decide, by rfl,
   (c9_no_rollback_on_abort "Genetics" none [step1, step2b] badStep .missingContainer
     (by decide) (by rfl)).1⟩

/-- C1 counterexample: fed the empty sequence (N = 0), the grouper produces
no units, but the final re-title step then fails — in Python it raises
`UnboundLocalError` on the never-assigned `exercise_node` — so the claim's
re-title clause cannot hold for N = 0. -/
theorem c1_counterexample_empty_sequence :
    runGrouper "Genetics" none [] initState = initState ∧
    (runGrouper "Genetics" none [] initState).units.length = 0 ∧
    retitleFinal "Genetics" (runGrouper "Genetics" none [] initState) = none :=
  ⟨rfl, rfl, rfl⟩

/-- C1 (amended): for every sequence of N ≥ 1 items fed to the grouper with
batch size 5, the number of produced units equals ceil(N/5), every unit
except possibly the last holds exactly 5 items, and after the final re-title
the last unit's title upper bound equals N.  (For N = 0 the re-title step
fails on the unbound exercise unit.) -/
theorem c1_grouper_counts_amended (short topicTitle : String) (thumb : Option String)
    (items : List (String × Question)) (h : items ≠ []) :
    ∃ s, retitleFinal topicTitle (runGrouper short thumb items initState) = some s ∧
      s.units.length = (items.length + 4) / 5 ∧
      (∀ i u, s.units.get? i = some u → i + 1 < s.units.length → u.questions.length = 5) ∧
      (∃ u a, s.units.getLast? = some u ∧ u.title = titleExercise topicTitle a items.length) := by
  set G := runGrouper short thumb items initState with hG
  have hunits : G.units = groupChunks short thumb 0 items := by
    rw [hG, runGrouper_aligned short thumb items.length items initState (le_refl _) rfl]
    rfl
  have hcount : G.itemCount = items.length := by
    rw [hG, runGrouper_itemCount]
    simp [initState]
  have hlen : G.units.length = (items.length + 4) / 5 := by
    rw [hunits]
    exact groupChunks_length short thumb items.length items 0 (le_refl _)
  have hpos : 0 < G.units.length := by
    rw [hlen]
    have : 0 < items.length := List.length_pos.mpr h
    omega
  have hne : G.units ≠ [] := by
    intro hnil
    rw [hnil] at hpos
    simp at hpos
  have hemp : G.units.isEmpty = false := by
    cases hu : G.units with
    | nil => exact absurd hu hne
    | cons a as => rfl
  refine ⟨{ G with
      units := setLastTitle G.units
          (titleExercise topicTitle (G.firstItemIndexInExercise + 1) G.itemCount) },
    ?_, ?_, ?_, ?_⟩
  · unfold retitleFinal
    rw [if_neg (by simp [hemp])]
  · show (setLastTitle G.units
      (titleExercise topicTitle (G.firstItemIndexInExercise + 1) G.itemCount)).length = _
    rw [setLastTitle_length, hlen]
  · intro i u hget hi
    dsimp only at hget hi
    rw [setLastTitle_length] at hi
    rw [setLastTitle_get?_lt _ _ i hi] at hget
    rw [hunits] at hget hi
    exact groupChunks_get?_questions short thumb items.length items 0 i u (le_refl _) hget hi
  · obtain ⟨u, hu, ht⟩ := setLastTitle_getLast? G.units
      (titleExercise topicTitle (G.firstItemIndexInExercise + 1) G.itemCount) hne
    refine ⟨u, G.firstItemIndexInExercise + 1, hu, ?_⟩
    rw [ht, hcount]

/-- C1 witness: a single item yields one unit, re-titled with upper bound
1. -/
theorem c1_grouper_counts_witness :
    ([("101", sampleQuestion)] : List (String × Question)) ≠ [] ∧
    (∃ s, retitleFinal "Genetics"
        (runGrouper "Genetics" none [("101", sampleQuestion)] initState) = some s ∧
      s.units.length = (([("101", sampleQuestion)] : List (String × Question)).length + 4) / 5 ∧
      (∀ i u, s.units.get? i = some u → i + 1 < s.units.length → u.questions.length = 5) ∧
      (∃ u a, s.units.getLast? = some u ∧
        u.title = titleExercise "Genetics" a
          ([("101", sampleQuestion)] : List (String × Question)).length)) :=
  ⟨by simp,
   c1_grouper_counts_amended "Genetics" "Genetics" none [("101", sampleQuestion)] (by simp)⟩

/-- C10 (confirmed): provisional unit titles are built from the short
assessment name while the final re-title uses the topic container's current
title; hence in a topic merged with a video playlist (container title
"name (playlist)") the last unit's title prefix differs from every earlier
unit's prefix. -/
theorem c10_title_prefix_mismatch (name pl : String) (thumb : Option String)
    (items : List (String × Question)) (h : items ≠ []) :
    ∃ s, retitleFinal (name ++ " (" ++ pl ++ ")")
        (runGrouper name thumb items initState) = some s ∧
      (∀ i u, s.units.get? i = some u → i + 1 < s.units.length →
        u.title = titleExercise name (5 * i + 1) (5 * i + 5)) ∧
      (∃ u a, s.units.getLast? = some u ∧
        u.title = titleExercise (name ++ " (" ++ pl ++ ")") a items.length) ∧
      name ++ " (" ++ pl ++ ")" ≠ name := by
  set G := runGrouper name thumb items initState with hG
  have hunits : G.units = groupChunks name thumb 0 items := by
    rw [hG, runGrouper_aligned name thumb items.length items initState (le_refl _) rfl]
    rfl
  have hcount : G.itemCount = items.length := by
    rw [hG, runGrouper_itemCount]
    simp [initState]
  have hlen : G.units.length = (items.length + 4) / 5 := by
    rw [hunits]
    exact groupChunks_length name thumb items.length items 0 (le_refl _)
  have hpos : 0 < G.units.length := by
    rw [hlen]
    have : 0 < items.length := List.length_pos.mpr h
    omega
  have hne : G.units ≠ [] := by
    intro hnil
    rw [hnil] at hpos
    simp at hpos
  have hemp : G.units.isEmpty = false := by
    cases hu : G.units with
    | nil => exact absurd hu hne
    | cons a as => rfl
  refine ⟨{ G with
      units := setLastTitle G.units
          (titleExercise (name ++ " (" ++ pl ++ ")")
            (G.firstItemIndexInExercise + 1) G.itemCount) },
    ?_, ?_, ?_, ?_⟩
  · unfold retitleFinal
    rw [if_neg (by simp [hemp])]
  · intro i u hget hi
    dsimp only at hget hi
    rw [setLastTitle_length] at hi
    rw [setLastTitle_get?_lt _ _ i hi] at hget
    rw [hunits] at hget
    have htit := groupChunks_get?_title name thumb items.length items 0 i u (le_refl _) hget
    rw [htit]
    rw [show 0 + 5 * i + 1 = 5 * i + 1 from by omega,
        show 0 + 5 * i + 5 = 5 * i + 5 from by omega]
  · obtain ⟨u, hu, ht⟩ := setLastTitle_getLast? G.units
      (titleExercise (name ++ " (" ++ pl ++ ")") (G.firstItemIndexInExercise + 1) G.itemCount)
      hne
    refine ⟨u, G.firstItemIndexInExercise + 1, hu, ?_⟩
    rw [ht, hcount]
  · intro heq
    have hl := congrArg String.length heq
    rw [String.length_append, String.length_append, String.length_append] at hl
    have h2 : (" (" : String).length = 2 := rfl
    have h1 : (")" : String).length = 1 := rfl
    omega

/-- C10 witness: a merged "Genetics (Genetics pathology)" topic with one item
gets its only (last) unit re-titled with the composite prefix, which differs
from the short prefix. -/
theorem c10_title_prefix_mismatch_witness :
    ([("101", sampleQuestion)] : List (String × Question)) ≠ [] ∧
    (∃ s, retitleFinal ("Genetics" ++ " (" ++ "Genetics pathology" ++ ")")
        (runGrouper "Genetics" none [("101", sampleQuestion)] initState) = some s ∧
      (∀ i u, s.units.get? i = some u → i + 1 < s.units.length →
        u.title = titleExercise "Genetics" (5 * i + 1) (5 * i + 5)) ∧
      (∃ u a, s.units.getLast? = some u ∧
        u.title = titleExercise ("Genetics" ++ " (" ++ "Genetics pathology" ++ ")") a
          ([("101", sampleQuestion)] : List (String × Question)).length) ∧
      "Genetics" ++ " (" ++ "Genetics pathology" ++ ")" ≠ "Genetics") :=
  ⟨by simp,
   c10_title_prefix_mismatch "Genetics" "Genetics pathology" none
     [("101", sampleQuestion)] (by simp)⟩

/-- C7 witness: the extractor errors on a fragment containing a two-image
child. -/
theorem c7_markdown_extractor_images_witness :
    (⟨[⟨some "a.png", "x"⟩, ⟨some "b.png", "y"⟩], [], "x"⟩ : DomChild) ∈
      [(⟨[⟨some "a.png", "x"⟩, ⟨some "b.png", "y"⟩], [], "x"⟩ : DomChild)] ∧
    2 ≤ (⟨[⟨some "a.png", "x"⟩, ⟨some "b.png", "y"⟩], [], "x"⟩ : DomChild).imageBlocks.length ∧
    ∃ e, processChildren true
      [(⟨[⟨some "a.png", "x"⟩, ⟨some "b.png", "y"⟩], [], "x"⟩ : DomChild)] = .error e :=
  ⟨by decide, by decide,
   (c7_markdown_extractor_images true
     [(⟨[⟨some "a.png", "x"⟩, ⟨some "b.png", "y"⟩], [], "x"⟩ : DomChild)]
     (⟨[⟨some "a.png", "x"⟩, ⟨some "b.png", "y"⟩], [], "x"⟩ : DomChild)).1
     (by decide) (by decide)⟩

end OpenOsmosis
